import Mathlib

/-!
Verification development for the treesitter-test repository.

The repository has two source files:
* `src/try2.rs` — a recursive shaped-tree builder (`build_ast`) over a
  classified syntax tree, with name inference and a children sort.
* `src/main.rs` — per-category extractors (`extract_functions`,
  `extract_fields`, ...) assembled by `generate_json`.

Both are embedded shallowly below.  Syntax nodes are modelled as rose
trees carrying the data the code reads from the external tree-sitter
tree: the kind-tag string, the node's source text (the code only ever
slices the buffer at the node's byte range, so the slice is stored
directly), the ordered children, and — for `main.rs` — per-child field
labels and named-flags backing `child_by_field_name` / `named_children`.
Rust panics (`unwrap` on a missing field) are modelled with `Except`.
-/

namespace Try2

/-- A syntax node as `try2.rs` consumes it: kind-tag, source text, children. -/
inductive RNode where
  | mk : String → String → List RNode → RNode

def RNode.kindTag : RNode → String
  | .mk k _ _ => k

def RNode.textOf : RNode → String
  | .mk _ t _ => t

def RNode.childrenOf : RNode → List RNode
  | .mk _ _ cs => cs

/-- The `Kind` enum of `try2.rs` (declaration order matters: `derive(Ord)`
compares by declaration order). -/
inductive Kind where
  | Root | Comment | Import | Struct | Enum | Derive | Function | Method
  | Field | Variable | Type | Trait | Impl | If | Else | Loop | Tuple
  | Array | FunctionCall | Undefined
  deriving Repr, DecidableEq

/-- Position of a constructor in the Rust declaration order; `derive(Ord)`
on a C-like enum compares these discriminants. -/
def Kind.idx : Kind → Nat
  | .Root => 0 | .Comment => 1 | .Import => 2 | .Struct => 3 | .Enum => 4
  | .Derive => 5 | .Function => 6 | .Method => 7 | .Field => 8 | .Variable => 9
  | .Type => 10 | .Trait => 11 | .Impl => 12 | .If => 13 | .Else => 14
  | .Loop => 15 | .Tuple => 16 | .Array => 17 | .FunctionCall => 18
  | .Undefined => 19

/-- `impl FromStr for Kind`.  The Rust implementation always returns `Ok`
(the catch-all arm yields `Ok(Kind::Undefined)`), so it is total. -/
def Kind.from_str (s : String) : Kind :=
  match s with
  | "source_file" => Kind.Root
  | "line_comment" => Kind.Comment
  | "import" => Kind.Import
  | "struct_item" => Kind.Struct
  | "enum_item" => Kind.Enum
  | "attribute_item" => Kind.Derive
  | "function_item" => Kind.Function
  | "impl_item" => Kind.Impl
  | "field_declaration" => Kind.Field
  | "let_declaration" => Kind.Variable
  | "type_item" => Kind.Type
  | "trait_item" => Kind.Trait
  | "if_expression" => Kind.If
  | "else_clause" => Kind.Else
  | "loop_expression" => Kind.Loop
  | "tuple_expression" => Kind.Tuple
  | "array_expression" => Kind.Array
  | "call_expression" => Kind.FunctionCall
  | _ => Kind.Undefined

def Kind.is_undefined (k : Kind) : Bool :=
  k == Kind.Undefined

/-- The shaped-tree element of `try2.rs` (`struct Thing`). -/
structure Thing where
  kind : Kind
  name : Option String
  text : String
  children : List Thing
  relations : List String

instance : Inhabited Thing := ⟨⟨Kind.Root, none, "", [], []⟩⟩

/-- `Thing::new`. -/
def Thing.new (kind : Kind) (text : String) : Thing :=
  ⟨kind, none, text, [], []⟩

/-- The comparator of the `sort_by` call in `build_ast`:
`a.kind.cmp(&b.kind).then_with(|| name(a).cmp(name(b)))` with absent names
read as the empty string; `thingLe a b` holds when the comparison is not
`Greater`. -/
def thingLe (a b : Thing) : Prop :=
  a.kind.idx < b.kind.idx ∨
    (a.kind.idx = b.kind.idx ∧ a.name.getD "" ≤ b.name.getD "")

instance : DecidableRel thingLe := fun a b => by
  unfold thingLe; infer_instance

instance : IsTotal Thing thingLe where
  total a b := by
    unfold thingLe
    rcases Nat.lt_trichotomy a.kind.idx b.kind.idx with h | h | h
    · exact Or.inl (Or.inl h)
    · rcases le_total (a.name.getD "") (b.name.getD "") with h2 | h2
      · exact Or.inl (Or.inr ⟨h, h2⟩)
      · exact Or.inr (Or.inr ⟨h.symm, h2⟩)
    · exact Or.inr (Or.inl h)

instance : IsTrans Thing thingLe where
  trans a b c hab hbc := by
    unfold thingLe at *
    rcases hab with h | ⟨he, hn⟩ <;> rcases hbc with h2 | ⟨he2, hn2⟩
    · exact Or.inl (h.trans h2)
    · exact Or.inl (he2 ▸ h)
    · exact Or.inl (he ▸ h2)
    · exact Or.inr ⟨he.trans he2, hn.trans hn2⟩

/-- `parent.children.sort_by(...)`: `Vec::sort_by` is a stable sort, and a
stable sort under a total preorder has a unique result, so insertion sort
(also stable) computes the same list. -/
def sortChildren (l : List Thing) : List Thing :=
  l.insertionSort thingLe

/-- `ASTConversionService::add_parent_name`. -/
def add_parent_name (name : String) (parent : Thing) : Thing :=
  if parent.name.isNone then { parent with name := some name } else parent

/-- `ASTConversionService::parent_namer`. -/
def parent_namer (node_kind : String) (body : String) (parent : Thing) : Thing :=
  if node_kind = "type_identifier" ∨ node_kind = "identifier" then
    add_parent_name body parent
  else
    parent

mutual

/-- `ASTConversionService::build_ast`.  The Rust code mutates `parent`;
here the updated parent is returned.  `Kind::from_str` never fails, so the
`if let Ok(kind)` branch is always taken. -/
def build_ast : RNode → Thing → Thing
  | .mk node_kind body cs, parent0 =>
    let parent := parent_namer node_kind body parent0
    let kind := Kind.from_str node_kind
    let element := Thing.new kind body
    let element :=
      if kind = Kind.Impl then buildImplChildren cs element
      else buildChildren cs element
    let parent :=
      if !element.kind.is_undefined then
        { parent with children := parent.children ++ [element] }
      else
        parent
    { parent with children := sortChildren parent.children }

/-- The `for child in node.children(...) { self.build_ast(child, element) }`
loop of the non-`Impl` branch. -/
def buildChildren : List RNode → Thing → Thing
  | [], element => element
  | c :: rest, element => buildChildren rest (build_ast c element)

/-- The `for child in node.children(...)` loop of the `Impl` branch:
`function_item` children are pushed directly as fresh `Function` elements,
everything else recurses. -/
def buildImplChildren : List RNode → Thing → Thing
  | [], element => element
  | c :: rest, element =>
    let element :=
      if c.kindTag = "function_item" then
        { element with children := element.children ++ [Thing.new Kind.Function c.textOf] }
      else
        build_ast c element
    buildImplChildren rest element

end

/-- `ASTConversionService::generate_ast_with_relations`, up to the final
JSON rendering (an external serializer). -/
def generate_ast_with_relations (root : RNode) : Thing :=
  build_ast root (Thing.new Kind.Root "Root")

end Try2

namespace MainRs

/-- A JSON value as built by the `json!` calls in `main.rs`. -/
inductive JValue where
  | null
  | str : String → JValue
  | bool : Bool → JValue
  | arr : List JValue → JValue
  | obj : List (String × JValue) → JValue

/-- `Option<String>` rendered into JSON: `None` becomes `null`. -/
def jopt : Option String → JValue
  | none => JValue.null
  | some s => JValue.str s

/-- JSON object indexing `v[key]`, yielding `null` when absent (serde_json
`Value::index` semantics on the values this program builds). -/
def jfield (v : JValue) (key : String) : JValue :=
  match v with
  | .obj kvs => ((kvs.find? (fun kv => kv.1 == key)).map (fun kv => kv.2)).getD .null
  | _ => .null

/-- `Value::as_str`. -/
def jasStr : JValue → Option String
  | .str s => some s
  | _ => none

/-- Does `pat` start the character list `s`? -/
def chStarts : List Char → List Char → Bool
  | [], _ => true
  | _ :: _, [] => false
  | a :: as, b :: bs => a == b && chStarts as bs

/-- Does `pat` occur as a contiguous run inside `s`? -/
def chSub (pat : List Char) : List Char → Bool
  | [] => chStarts pat []
  | b :: bs => chStarts pat (b :: bs) || chSub pat bs

/-- `str::contains(pat)`: substring containment. -/
def strContains (s pat : String) : Bool :=
  chSub pat.data s.data

/-- A syntax node as `main.rs` consumes it.  Each child entry carries the
grammar field label backing `child_by_field_name` (if any), the
tree-sitter named-flag backing `named_children`, and the child itself. -/
inductive SNode where
  | mk : String → String → List (Option String × Bool × SNode) → SNode

def SNode.kind : SNode → String
  | .mk k _ _ => k

def SNode.textOf : SNode → String
  | .mk _ t _ => t

def SNode.entries : SNode → List (Option String × Bool × SNode)
  | .mk _ _ es => es

/-- `node.children(&mut node.walk())`. -/
def SNode.children (n : SNode) : List SNode :=
  n.entries.map (fun e => e.2.2)

/-- `node.named_children(&mut node.walk())`. -/
def SNode.named_children (n : SNode) : List SNode :=
  (n.entries.filter (fun e => e.2.1)).map (fun e => e.2.2)

/-- `node.child_by_field_name(f)`. -/
def SNode.child_by_field_name (n : SNode) (f : String) : Option SNode :=
  ((n.entries.find? (fun e => e.1 == some f)).map (fun e => e.2.2))

/-- `ASTConversionService::node_text`: the source buffer sliced at the
node's byte range, stored directly on the node. -/
def node_text (n : SNode) : String :=
  n.textOf

/-- The panic message of `Option::unwrap` on `None`; `unwrap` aborts the
process, modelled as `Except.error`. -/
def unwrapMsg : String :=
  "called Option::unwrap on a None value"

/-- `Option::unwrap`. -/
def unwrap {α : Type} : Option α → Except String α
  | some a => Except.ok a
  | none => Except.error unwrapMsg

/-- The report record of `main.rs` (`struct Thing`). -/
structure MThing where
  name : String
  attributes : List JValue
  children : List MThing

/-- `extract_imports`. -/
def extract_imports (node : SNode) : List MThing :=
  node.children.filterMap (fun child =>
    if child.kind = "use_declaration" then
      some ⟨node_text child, [], []⟩
    else none)

/-- `extract_parameters`. -/
def extract_parameters (function_node : SNode) : List JValue :=
  match function_node.child_by_field_name "parameters" with
  | none => []
  | some parameters_node =>
    parameters_node.named_children.map (fun param =>
      let param_name := node_text param
      let param_type := (param.child_by_field_name "type").map node_text
      let is_mutable := param.kind == "mut"
      let is_reference := param_name.startsWith "&"
      let default_value := (param.child_by_field_name "default_value").map node_text
      JValue.obj [("name", .str param_name), ("type", jopt param_type),
        ("is_mutable", .bool is_mutable), ("is_reference", .bool is_reference),
        ("default_value", jopt default_value)])

/-- `extract_called_methods` (scans direct children only). -/
def extract_called_methods (function_node : SNode) : List JValue :=
  function_node.children.filterMap (fun descendant =>
    if descendant.kind = "call_expression" then
      (descendant.child_by_field_name "function").map (fun m =>
        JValue.obj [("name", .str (node_text m))])
    else none)

/-- `extract_method_variables` (scans direct children only; unwraps the
`name` field of each `let_declaration`). -/
def extract_method_variables (function_node : SNode) : Except String (List JValue) :=
  function_node.children.foldlM (fun vars descendant =>
    if descendant.kind = "let_declaration" then do
      let name_node ← unwrap (descendant.child_by_field_name "name")
      let value_node := descendant.child_by_field_name "value"
      let value_type := value_node.map node_text
      pure (vars ++ [JValue.obj [("name", .str (node_text name_node)),
        ("type", jopt value_type)]])
    else pure vars) []

/-- `extract_functions` (unwraps the `name` field of each
`function_item`). -/
def extract_functions (node : SNode) : Except String (List MThing) :=
  node.children.foldlM (fun functions child =>
    if child.kind = "function_item" then do
      let function_name_node ← unwrap (child.child_by_field_name "name")
      let function_name := node_text function_name_node
      let parameters := extract_parameters child
      let body := node_text child
      let called_methods := extract_called_methods child
      let local_variables ← extract_method_variables child
      let attributes := [JValue.arr parameters, JValue.str body,
        JValue.arr called_methods, JValue.arr local_variables]
      pure (functions ++ [MThing.mk function_name attributes []])
    else pure functions) []

/-- `extract_metadata`: scans direct children for `attribute_item`; a
missing `attribute` field logs a warning and is skipped. -/
def extract_metadata (node : SNode) : List JValue :=
  node.children.filterMap (fun child =>
    if child.kind = "attribute_item" then
      (child.child_by_field_name "attribute").map (fun a =>
        JValue.obj [("attribute", .str (node_text a))])
    else none)

/-- `extract_fields`: iterates the named children of the struct body; a
field without a `name` field logs a warning and is skipped (`continue`). -/
def extract_fields (struct_node : SNode) : List MThing :=
  match struct_node.child_by_field_name "body" with
  | none => []
  | some body_node =>
    body_node.named_children.filterMap (fun field =>
      match field.child_by_field_name "name" with
      | none => none
      | some name_node =>
        let field_type := (field.child_by_field_name "type").map node_text
        let attributes := extract_metadata field
        some (MThing.mk (node_text name_node)
          [JValue.obj [("type", jopt field_type), ("attributes", JValue.arr attributes)]]
          []))

/-- `extract_structs` (skips a `struct_item` without a `name` field via
`if let`). -/
def extract_structs (node : SNode) : List MThing :=
  node.children.filterMap (fun child =>
    if child.kind = "struct_item" then
      (child.child_by_field_name "name").map (fun n =>
        MThing.mk (node_text n) [] (extract_fields child))
    else none)

/-- `extract_variants` (unwraps the `name` field of each variant). -/
def extract_variants (enum_node : SNode) : Except String (List MThing) :=
  match enum_node.child_by_field_name "body" with
  | none => pure []
  | some body_node =>
    body_node.named_children.foldlM (fun variants variant => do
      let n ← unwrap (variant.child_by_field_name "name")
      pure (variants ++ [MThing.mk (node_text n) [] []])) []

/-- `extract_enums` (unwraps the `name` field of each `enum_item`). -/
def extract_enums (node : SNode) : Except String (List MThing) :=
  node.children.foldlM (fun enums child =>
    if child.kind = "enum_item" then do
      let n ← unwrap (child.child_by_field_name "name")
      let variants ← extract_variants child
      pure (enums ++ [MThing.mk (node_text n) [] variants])
    else pure enums) []

/-- `extract_relations`: `impl_item` children with a `name` field, plus
`attribute_item` children whose first metadata entry mentions derive. -/
def extract_relations (node : SNode) : List MThing :=
  node.children.filterMap (fun child =>
    if child.kind = "impl_item" then
      (child.child_by_field_name "name").map (fun name_node =>
        let trait_name := (child.child_by_field_name "trait").map node_text
        let generic_params := (child.child_by_field_name "generic_parameters").map node_text
        MThing.mk (node_text name_node)
          [JValue.obj [("type", .str "impl"), ("trait", jopt trait_name),
            ("generics", jopt generic_params)]]
          [])
    else if child.kind = "attribute_item" then
      match (extract_metadata child).head? with
      | none => none
      | some attribute_text =>
        if strContains ((jasStr (jfield attribute_text "attribute")).getD "") "derive" then
          some (MThing.mk "derive" [attribute_text] [])
        else none
    else none)

/-- `extract_constants`: unwraps the `name` field; the value falls back to
the whole node when no `value` field exists (`unwrap_or(child)`). -/
def extract_constants (node : SNode) : Except String (List MThing) :=
  node.children.foldlM (fun constants child =>
    if child.kind = "const_item" then do
      let n ← unwrap (child.child_by_field_name "name")
      let constant_value := node_text ((child.child_by_field_name "value").getD child)
      pure (constants ++ [MThing.mk (node_text n)
        [JValue.obj [("value", .str constant_value)]] []])
    else pure constants) []

/-- `extract_modules_and_impls` (unwraps the `name` field of each
`mod_item`). -/
def extract_modules_and_impls (node : SNode) : Except String (List MThing) :=
  node.children.foldlM (fun modules child =>
    if child.kind = "mod_item" then do
      let n ← unwrap (child.child_by_field_name "name")
      pure (modules ++ [MThing.mk (node_text n) [] []])
    else pure modules) []

/-- `extract_nested` (unwraps the `name` field of each function, struct
and enum child). -/
def extract_nested (node : SNode) : Except String (List MThing) :=
  node.children.foldlM (fun nested_items child =>
    if child.kind = "function_item" then do
      let n ← unwrap (child.child_by_field_name "name")
      pure (nested_items ++ [MThing.mk (node_text n) [] []])
    else if child.kind = "struct_item" then do
      let n ← unwrap (child.child_by_field_name "name")
      pure (nested_items ++ [MThing.mk (node_text n) [] []])
    else if child.kind = "enum_item" then do
      let n ← unwrap (child.child_by_field_name "name")
      pure (nested_items ++ [MThing.mk (node_text n) [] []])
    else pure nested_items) []

/-- `extract_globals`: unwraps the `name` field of each top-level
`let_declaration`; an absent `value` field is rendered as JSON `null`. -/
def extract_globals (node : SNode) : Except String (List MThing) :=
  node.children.foldlM (fun globals child =>
    if child.kind = "let_declaration" then do
      let n ← unwrap (child.child_by_field_name "name")
      let value_node := child.child_by_field_name "value"
      let value_type := value_node.map node_text
      pure (globals ++ [MThing.mk (node_text n)
        [JValue.obj [("type", jopt value_type)]] []])
    else pure globals) []

/-- `extract_schema`: one entry per `struct_item` child, holding only the
struct name (defaulting to "unknown") and its extracted fields. -/
def extract_schema (node : SNode) : List MThing :=
  node.children.filterMap (fun child =>
    if child.kind = "struct_item" then
      let struct_name := (child.child_by_field_name "name").map node_text
      let fields := extract_fields child
      some (MThing.mk (struct_name.getD "unknown") [] fields)
    else none)

/-- The assembled report of `generate_json`, one Lean field per JSON
section, in the order the `json!` macro evaluates them. -/
structure Report where
  imports : List MThing
  functions : List MThing
  structs : List MThing
  enums : List MThing
  relations : List MThing
  constants : List MThing
  modules_and_impls : List MThing
  metadata : List JValue
  nested_items : List MThing
  globals : List MThing
  schemas : List MThing

/-- `ASTConversionService::generate_json`, run on the tree's root node.
Sections are computed in the source order of the `json!` literal, so the
first panicking extractor aborts the run. -/
def generate_json (root_node : SNode) : Except String Report := do
  let imports := extract_imports root_node
  let functions ← extract_functions root_node
  let structs := extract_structs root_node
  let enums ← extract_enums root_node
  let relations := extract_relations root_node
  let constants ← extract_constants root_node
  let modules_and_impls ← extract_modules_and_impls root_node
  let metadata := extract_metadata root_node
  let nested_items ← extract_nested root_node
  let globals ← extract_globals root_node
  let schemas := extract_schema root_node
  pure ⟨imports, functions, structs, enums, relations, constants,
    modules_and_impls, metadata, nested_items, globals, schemas⟩

end MainRs

namespace Try2

mutual

/-- Does any element of the shaped tree (the root included) have kind `k`? -/
def containsKind : Thing → Kind → Bool
  | ⟨k0, _, _, cs, _⟩, k => k0 == k || containsKindL cs k

def containsKindL : List Thing → Kind → Bool
  | [], _ => false
  | c :: rest, k => containsKind c k || containsKindL rest k

end

mutual

/-- Every element of the shaped tree has an empty `relations` list. -/
def relationsEmpty : Thing → Bool
  | ⟨_, _, _, cs, rs⟩ => rs.isEmpty && relationsEmptyL cs

def relationsEmptyL : List Thing → Bool
  | [] => true
  | c :: rest => relationsEmpty c && relationsEmptyL rest

end

mutual

/-- No children list anywhere in the shaped tree contains an element of
kind `Undefined`. -/
def noUndefChild : Thing → Bool
  | ⟨_, _, _, cs, _⟩ => noUndefChildL cs

def noUndefChildL : List Thing → Bool
  | [] => true
  | c :: rest => !(c.kind == Kind.Undefined) && noUndefChild c && noUndefChildL rest

end

/-- A source unit whose only top-level item is a node with an unmapped
kind-tag wrapping a function definition. -/
def exUnmappedWrapper : RNode :=
  .mk "source_file" "mod m(fn f())"
    [.mk "unknown_wrapper" "fn f() wrapped"
      [.mk "function_item" "fn f()" [.mk "identifier" "f" []]]]

/-- A source unit with one `impl` block containing one method. -/
def exImplFn : RNode :=
  .mk "source_file" "impl S (fn m())"
    [.mk "impl_item" "impl S (fn m())"
      [.mk "type_identifier" "S" [],
       .mk "function_item" "fn m()" [.mk "identifier" "m" []]]]

/-- A struct node whose first identifier-bearing child is the name token
`Point`, followed by a second type identifier `f64`. -/
def exStructPoint : RNode :=
  .mk "struct_item" "struct Point(f64)"
    [.mk "type_identifier" "Point" [],
     .mk "type_identifier" "f64" []]

/-- A source unit with one `impl` block holding a non-method child (sorted
kind `Variable`) followed by a directly-pushed method (kind `Function`):
the method is appended after the last sort of the impl element's children. -/
def exImplMixed : RNode :=
  .mk "source_file" "impl S2 (let x; fn a())"
    [.mk "impl_item" "impl S2 (let x; fn a())"
      [.mk "let_declaration" "let x = 1;" [],
       .mk "function_item" "fn a()" []]]

/-- The syntax-tree children of a method body: a local `let` and a call,
used to witness that the builder never descends into method bodies. -/
def exMethodChildren : List RNode :=
  [.mk "let_declaration" "let z = 0;" [],
   .mk "call_expression" "g()" []]

/-- An `impl` node whose single method wraps the nodes of
`exMethodChildren`. -/
def exImplDeepMethod : RNode :=
  .mk "impl_item" "impl T (fn m)"
    [.mk "function_item" "fn m body" exMethodChildren]

end Try2

namespace MainRs

/-- An anonymous (unlabelled) named child entry. -/
def anon (n : SNode) : Option String × Bool × SNode :=
  (none, true, n)

/-- A child entry labelled with a grammar field name. -/
def fld (f : String) (n : SNode) : Option String × Bool × SNode :=
  (some f, true, n)

/-- The source unit of spec §8, completeness test: one import, one
function, one struct with two fields of which one carries a foreign-key
annotation, one enum with two variants. -/
def exUnit : SNode :=
  .mk "source_file" "the unit"
    [anon (.mk "use_declaration" "use std::fs;" []),
     anon (.mk "function_item" "fn main()"
       [fld "name" (.mk "identifier" "main" []),
        fld "parameters" (.mk "parameters" "()" []),
        fld "body" (.mk "block" "the body" [])]),
     anon (.mk "struct_item" "struct User"
       [fld "name" (.mk "type_identifier" "User" []),
        fld "body" (.mk "field_declaration_list" "the fields"
          [anon (.mk "field_declaration" "id: u64"
            [fld "name" (.mk "field_identifier" "id" []),
             fld "type" (.mk "primitive_type" "u64" [])]),
           anon (.mk "field_declaration" "owner_id: u64"
            [anon (.mk "attribute_item" "#[foreign_key]"
              [fld "attribute" (.mk "attribute" "foreign_key" [])]),
             fld "name" (.mk "field_identifier" "owner_id" []),
             fld "type" (.mk "primitive_type" "u64" [])])])]),
     anon (.mk "enum_item" "enum Status"
       [fld "name" (.mk "type_identifier" "Status" []),
        fld "body" (.mk "enum_variant_list" "the variants"
          [anon (.mk "enum_variant" "On" [fld "name" (.mk "identifier" "On" [])]),
           anon (.mk "enum_variant" "Off" [fld "name" (.mk "identifier" "Off" [])])])])]

/-- A source unit whose single function item has no discoverable `name`
field. -/
def exFnNoName : SNode :=
  .mk "source_file" "fn without name"
    [anon (.mk "function_item" "fn ()" [])]

/-- A source unit with one top-level `let` declaration that has a name but
no `value` field. -/
def exGlobalNoValue : SNode :=
  .mk "source_file" "let x;"
    [anon (.mk "let_declaration" "let x;"
      [fld "name" (.mk "identifier" "x" [])])]

/-- A source unit with one constant that has a name but no `value` field. -/
def exConstNoValue : SNode :=
  .mk "source_file" "const C: u8;"
    [anon (.mk "const_item" "const C: u8;"
      [fld "name" (.mk "identifier" "C" [])])]

/-- The annotation texts attached to a field record, as `extract_fields`
stores them: inside the single attributes object, under key `attributes`,
a list of objects each carrying key `attribute`. -/
def fieldAnnotationTexts (field : MThing) : List JValue :=
  (field.attributes.map (fun a =>
    match jfield a "attributes" with
    | .arr xs => xs.filterMap (fun x => (jasStr (jfield x "attribute")).map JValue.str)
    | _ => [])).flatten

/-- Whether some annotation text of the field mentions the foreign-key
marker. -/
def fieldHasForeignKey (field : MThing) : Bool :=
  (fieldAnnotationTexts field).any (fun t =>
    match t with
    | .str s => strContains s "foreign_key"
    | _ => false)

/-- The schema/relationship inferencer exactly as the spec words it
(§4.6): from the aggregates (structs) report, for every field whose
attached annotation text matches a foreign-key marker, emit a
`(field_name, foreign_key)` fact.  This definition follows the spec, not
the source (the source has no such inferencer); it exists to be compared
with what `extract_schema` actually produces. -/
def specInferRelationships (structs : List MThing) : List (String × String) :=
  (structs.map (fun s =>
    s.children.filterMap (fun f =>
      if fieldHasForeignKey f then some (f.name, "foreign_key") else none))).flatten

end MainRs

namespace Try2

theorem add_parent_name_children (nm : String) (p : Thing) :
    (add_parent_name nm p).children = p.children := by
  unfold add_parent_name; split <;> rfl

theorem parent_namer_children (k b : String) (p : Thing) :
    (parent_namer k b p).children = p.children := by
  unfold parent_namer; split
  · exact add_parent_name_children b p
  · rfl

theorem parent_namer_relations (k b : String) (p : Thing) :
    (parent_namer k b p).relations = p.relations := by
  unfold parent_namer add_parent_name
  split
  · split <;> rfl
  · rfl

theorem parent_namer_kind (k b : String) (p : Thing) :
    (parent_namer k b p).kind = p.kind := by
  unfold parent_namer add_parent_name
  split
  · split <;> rfl
  · rfl

theorem parent_namer_name_some (k b : String) (p : Thing) (s : String)
    (h : p.name = some s) : (parent_namer k b p).name = some s := by
  unfold parent_namer add_parent_name
  split
  · split
    · simp_all
    · exact h
  · exact h

theorem build_ast_name (k t : String) (cs : List RNode) (p : Thing) :
    (build_ast (.mk k t cs) p).name = (parent_namer k t p).name := by
  simp only [build_ast]
  split <;> split <;> rfl

theorem build_ast_kind (n : RNode) (p : Thing) :
    (build_ast n p).kind = p.kind := by
  cases n with
  | mk k t cs =>
    simp only [build_ast]
    split <;> split <;> exact parent_namer_kind k t p

theorem buildChildren_kind (ns : List RNode) (el : Thing) :
    (buildChildren ns el).kind = el.kind := by
  induction ns generalizing el with
  | nil => rfl
  | cons c rest ih =>
    simp only [buildChildren]
    rw [ih, build_ast_kind]

theorem buildImplChildren_kind (ns : List RNode) (el : Thing) :
    (buildImplChildren ns el).kind = el.kind := by
  induction ns generalizing el with
  | nil => rfl
  | cons c rest ih =>
    simp only [buildImplChildren]
    split
    · rw [ih]
    · rw [ih, build_ast_kind]

theorem mem_sortChildren (a : Thing) (l : List Thing) :
    a ∈ sortChildren l ↔ a ∈ l := by
  unfold sortChildren
  exact List.mem_insertionSort thingLe

theorem sorted_sortChildren (l : List Thing) :
    List.Sorted thingLe (sortChildren l) :=
  List.sorted_insertionSort thingLe l

theorem noUndefChildL_eq_all (l : List Thing) :
    noUndefChildL l = l.all (fun c => !(c.kind == Kind.Undefined) && noUndefChild c) := by
  induction l with
  | nil => rfl
  | cons c rest ih => simp [noUndefChildL, ih, Bool.and_assoc]

theorem relationsEmptyL_eq_all (l : List Thing) :
    relationsEmptyL l = l.all relationsEmpty := by
  induction l with
  | nil => rfl
  | cons c rest ih => simp [relationsEmptyL, ih]

theorem noUndefChildL_sortChildren (l : List Thing) :
    noUndefChildL (sortChildren l) = true ↔ noUndefChildL l = true := by
  simp only [noUndefChildL_eq_all, List.all_eq_true]
  constructor
  · intro h x hx
    exact h x ((mem_sortChildren x l).mpr hx)
  · intro h x hx
    exact h x ((mem_sortChildren x l).mp hx)

theorem relationsEmptyL_sortChildren (l : List Thing) :
    relationsEmptyL (sortChildren l) = true ↔ relationsEmptyL l = true := by
  simp only [relationsEmptyL_eq_all, List.all_eq_true]
  constructor
  · intro h x hx
    exact h x ((mem_sortChildren x l).mpr hx)
  · intro h x hx
    exact h x ((mem_sortChildren x l).mp hx)

theorem noUndefChild_eq (t : Thing) : noUndefChild t = noUndefChildL t.children := by
  cases t; rfl

theorem relationsEmpty_eq (t : Thing) :
    relationsEmpty t = (t.relations.isEmpty && relationsEmptyL t.children) := by
  cases t; rfl

theorem noUndefChildL_append (l1 l2 : List Thing) :
    noUndefChildL (l1 ++ l2) = (noUndefChildL l1 && noUndefChildL l2) := by
  simp [noUndefChildL_eq_all, List.all_append]

theorem relationsEmptyL_append (l1 l2 : List Thing) :
    relationsEmptyL (l1 ++ l2) = (relationsEmptyL l1 && relationsEmptyL l2) := by
  simp [relationsEmptyL_eq_all, List.all_append]

/-- The final two statements of `build_ast` (conditional push, then sort),
abstracted over the built element `E` and the named parent `pn`:
they preserve Undefined-freeness of all children lists. -/
theorem noUndef_attach (pn E : Thing)
    (hp : noUndefChildL pn.children = true) (hE : noUndefChild E = true) :
    noUndefChild
      { (if (!E.kind.is_undefined) = true then
            { pn with children := pn.children ++ [E] } else pn) with
        children := sortChildren
          (if (!E.kind.is_undefined) = true then
            { pn with children := pn.children ++ [E] } else pn).children } = true := by
  rw [noUndefChild_eq]
  show noUndefChildL (sortChildren _) = true
  rw [noUndefChildL_sortChildren]
  split
  · rename_i hguard
    show noUndefChildL (pn.children ++ [E]) = true
    rw [noUndefChildL_append, hp]
    simp only [noUndefChildL, Bool.and_true, Bool.true_and]
    rw [hE]
    simp only [Kind.is_undefined, Bool.not_eq_eq_eq_not, Bool.not_true] at hguard
    simp [hguard]
  · exact hp

mutual

theorem noUndef_build : ∀ (n : RNode) (p : Thing),
    noUndefChild p = true → noUndefChild (build_ast n p) = true
  | .mk k t cs, p, hp => by
    have hel : noUndefChild (if Kind.from_str k = Kind.Impl then
        buildImplChildren cs (Thing.new (Kind.from_str k) t)
      else buildChildren cs (Thing.new (Kind.from_str k) t)) = true := by
      split
      · exact noUndef_impl cs _ rfl
      · exact noUndef_list cs _ rfl
    have hpn : noUndefChildL (parent_namer k t p).children = true := by
      rw [parent_namer_children, ← noUndefChild_eq]; exact hp
    simp only [build_ast]
    exact noUndef_attach (parent_namer k t p) _ hpn hel

theorem noUndef_list : ∀ (ns : List RNode) (el : Thing),
    noUndefChild el = true → noUndefChild (buildChildren ns el) = true
  | [], _, h => h
  | c :: rest, el, h => noUndef_list rest _ (noUndef_build c el h)

theorem noUndef_impl : ∀ (ns : List RNode) (el : Thing),
    noUndefChild el = true → noUndefChild (buildImplChildren ns el) = true
  | [], _, h => h
  | c :: rest, el, h => by
    simp only [buildImplChildren]
    split
    · refine noUndef_impl rest _ ?_
      rw [noUndefChild_eq]
      show noUndefChildL (el.children ++ [Thing.new Kind.Function c.textOf]) = true
      rw [noUndefChildL_append, ← noUndefChild_eq, h]
      rfl
    · exact noUndef_impl rest _ (noUndef_build c el h)

end

/-- The final two statements of `build_ast` preserve emptiness of every
`relations` list. -/
theorem relEmpty_attach (pn E : Thing)
    (hp : relationsEmpty pn = true) (hE : relationsEmpty E = true) :
    relationsEmpty
      { (if (!E.kind.is_undefined) = true then
            { pn with children := pn.children ++ [E] } else pn) with
        children := sortChildren
          (if (!E.kind.is_undefined) = true then
            { pn with children := pn.children ++ [E] } else pn).children } = true := by
  rw [relationsEmpty_eq] at hp ⊢
  simp only [Bool.and_eq_true] at hp ⊢
  constructor
  · show (if _ then { pn with children := _ } else pn).relations.isEmpty = true
    split <;> exact hp.1
  · show relationsEmptyL (sortChildren _) = true
    rw [relationsEmptyL_sortChildren]
    split
    · show relationsEmptyL (pn.children ++ [E]) = true
      rw [relationsEmptyL_append, hp.2]
      simp [relationsEmptyL, hE]
    · exact hp.2

mutual

theorem relEmpty_build : ∀ (n : RNode) (p : Thing),
    relationsEmpty p = true → relationsEmpty (build_ast n p) = true
  | .mk k t cs, p, hp => by
    have hel : relationsEmpty (if Kind.from_str k = Kind.Impl then
        buildImplChildren cs (Thing.new (Kind.from_str k) t)
      else buildChildren cs (Thing.new (Kind.from_str k) t)) = true := by
      split
      · exact relEmpty_impl cs _ rfl
      · exact relEmpty_list cs _ rfl
    have hpn : relationsEmpty (parent_namer k t p) = true := by
      rw [relationsEmpty_eq, parent_namer_relations, parent_namer_children]
      rw [relationsEmpty_eq] at hp
      exact hp
    simp only [build_ast]
    exact relEmpty_attach (parent_namer k t p) _ hpn hel

theorem relEmpty_list : ∀ (ns : List RNode) (el : Thing),
    relationsEmpty el = true → relationsEmpty (buildChildren ns el) = true
  | [], _, h => h
  | c :: rest, el, h => relEmpty_list rest _ (relEmpty_build c el h)

theorem relEmpty_impl : ∀ (ns : List RNode) (el : Thing),
    relationsEmpty el = true → relationsEmpty (buildImplChildren ns el) = true
  | [], _, h => h
  | c :: rest, el, h => by
    simp only [buildImplChildren]
    split
    · refine relEmpty_impl rest _ ?_
      rw [relationsEmpty_eq] at h ⊢
      simp only [Bool.and_eq_true] at h ⊢
      refine ⟨h.1, ?_⟩
      show relationsEmptyL (el.children ++ [Thing.new Kind.Function c.textOf]) = true
      rw [relationsEmptyL_append, h.2]
      rfl
    · exact relEmpty_impl rest _ (relEmpty_build c el h)

end

theorem buildImplChildren_all_fn : ∀ (cs : List RNode) (el : Thing),
    cs.all (fun c => c.kindTag == "function_item") = true →
    buildImplChildren cs el =
      { el with children := el.children ++
          cs.map (fun c => Thing.new Kind.Function c.textOf) } := by
  intro cs
  induction cs with
  | nil => intro el _; cases el; simp [buildImplChildren]
  | cons c rest ih =>
    intro el h
    simp only [List.all_cons, Bool.and_eq_true, beq_iff_eq] at h
    simp only [buildImplChildren, if_pos h.1]
    rw [ih _ h.2]
    simp [List.append_assoc]

theorem build_ast_name_immutable (n : RNode) (p : Thing) (s : String)
    (h : p.name = some s) : (build_ast n p).name = some s := by
  cases n with
  | mk k t cs =>
    rw [build_ast_name]
    exact parent_namer_name_some k t p s h

end Try2

namespace MainRs

theorem extract_fields_skips_nameless (sn bk bt : String)
    (e1 e2 : List (Option String × Bool × SNode)) (bad : SNode)
    (h : bad.child_by_field_name "name" = none) :
    extract_fields (.mk "struct_item" sn [fld "body" (.mk bk bt (e1 ++ [anon bad] ++ e2))]) =
      extract_fields (.mk "struct_item" sn [fld "body" (.mk bk bt (e1 ++ e2))]) := by
  simp only [SNode.child_by_field_name, SNode.entries] at h
  simp [extract_fields, SNode.child_by_field_name, SNode.entries, SNode.named_children,
    fld, anon, List.filter_append, List.map_append, List.filterMap_append,
    List.filterMap_cons, h]

theorem extract_functions_nameless_aborts (k t ftext : String)
    (rest : List (Option String × Bool × SNode)) :
    extract_functions (.mk k t (anon (.mk "function_item" ftext []) :: rest)) =
      Except.error unwrapMsg := rfl

theorem extract_constants_fallback (k t ctext : String)
    (ces : List (Option String × Bool × SNode)) (nm : SNode)
    (hn : (SNode.mk "const_item" ctext ces).child_by_field_name "name" = some nm)
    (hv : (SNode.mk "const_item" ctext ces).child_by_field_name "value" = none) :
    extract_constants (.mk k t [anon (.mk "const_item" ctext ces)]) =
      Except.ok [MThing.mk (node_text nm) [JValue.obj [("value", JValue.str ctext)]] []] := by
  simp [extract_constants, SNode.children, SNode.entries, SNode.kind, anon, hn, hv,
    unwrap, node_text, SNode.textOf]

theorem extract_globals_null (k t gtext : String)
    (ges : List (Option String × Bool × SNode)) (nm : SNode)
    (hn : (SNode.mk "let_declaration" gtext ges).child_by_field_name "name" = some nm)
    (hv : (SNode.mk "let_declaration" gtext ges).child_by_field_name "value" = none) :
    extract_globals (.mk k t [anon (.mk "let_declaration" gtext ges)]) =
      Except.ok [MThing.mk (node_text nm) [JValue.obj [("type", JValue.null)]] []] := by
  simp [extract_globals, SNode.children, SNode.entries, SNode.kind, anon, hn, hv,
    unwrap, node_text, SNode.textOf, jopt]

end MainRs

/-- Claim C1, counterexample: on a source unit whose only top-level item is
an unmapped wrapper around a function definition, the shaped tree contains
no `Function` element at all (and no `Undefined` element either): the
wrapper's subtree is dropped, so the function is not reachable from the
root. -/
theorem unmapped_wrapper_function_lost :
    Try2.containsKind (Try2.generate_ast_with_relations Try2.exUnmappedWrapper)
      Try2.Kind.Function = false
    ∧ Try2.containsKind (Try2.generate_ast_with_relations Try2.exUnmappedWrapper)
      Try2.Kind.Undefined = false :=
  ⟨rfl, rfl⟩

/-- Claim C1, amended: when a node's kind-tag classifies as `Undefined`,
`build_ast` adds nothing to the parent: no element for the wrapper, and
none of its descendants either — the whole subtree is discarded (the
parent is only renamed by the namer and its children re-sorted). -/
theorem build_ast_unmapped_discards_subtree (k t : String)
    (cs : List Try2.RNode) (p : Try2.Thing)
    (h : Try2.Kind.from_str k = Try2.Kind.Undefined) :
    Try2.build_ast (.mk k t cs) p =
      { Try2.parent_namer k t p with
        children := Try2.sortChildren (Try2.parent_namer k t p).children } := by
  have hk : (if Try2.Kind.from_str k = Try2.Kind.Impl then
      Try2.buildImplChildren cs (Try2.Thing.new (Try2.Kind.from_str k) t)
    else Try2.buildChildren cs (Try2.Thing.new (Try2.Kind.from_str k) t)).kind
      = Try2.Kind.Undefined := by
    rw [if_neg (by rw [h]; exact fun hc => Try2.Kind.noConfusion hc)]
    rw [Try2.buildChildren_kind, h]
    rfl
  simp only [Try2.build_ast]
  rw [if_neg (by simp [Try2.Kind.is_undefined, hk])]

/-- Witness for `build_ast_unmapped_discards_subtree` at the unmapped tag
`unknown_wrapper` and a function-bearing subtree. -/
theorem build_ast_unmapped_discards_subtree_witness :
    (Try2.Kind.from_str "unknown_wrapper" = Try2.Kind.Undefined)
    ∧ Try2.build_ast
        (.mk "unknown_wrapper" "fn f() wrapped"
          [.mk "function_item" "fn f()" [.mk "identifier" "f" []]])
        (Try2.Thing.new Try2.Kind.Root "Root") =
      { Try2.parent_namer "unknown_wrapper" "fn f() wrapped"
          (Try2.Thing.new Try2.Kind.Root "Root") with
        children := Try2.sortChildren
          (Try2.parent_namer "unknown_wrapper" "fn f() wrapped"
            (Try2.Thing.new Try2.Kind.Root "Root")).children } :=
  ⟨rfl, build_ast_unmapped_discards_subtree _ _ _ _ rfl⟩

/-- Claim C2, counterexample: for a source unit holding an `Impl` node with
one `Function` child, every `relations` list in the final shaped tree is
empty — in particular no `(Impl, Function)` edge was recorded anywhere. -/
theorem no_relation_edges_recorded :
    Try2.relationsEmpty (Try2.generate_ast_with_relations Try2.exImplFn) = true :=
  rfl

/-- Claim C2, amended: no relation edge is ever recorded during the build —
the `relations` field of `Thing` is never written, so a build starting from
a parent with all-empty relation lists ends with all-empty relation lists. -/
theorem build_ast_preserves_empty_relations (n : Try2.RNode) (p : Try2.Thing)
    (h : Try2.relationsEmpty p = true) :
    Try2.relationsEmpty (Try2.build_ast n p) = true :=
  Try2.relEmpty_build n p h

/-- Witness for `build_ast_preserves_empty_relations` on the impl-with-one-
method unit. -/
theorem build_ast_preserves_empty_relations_witness :
    Try2.relationsEmpty (Try2.Thing.new Try2.Kind.Root "Root") = true
    ∧ Try2.relationsEmpty
        (Try2.build_ast Try2.exImplFn (Try2.Thing.new Try2.Kind.Root "Root")) = true :=
  ⟨rfl, build_ast_preserves_empty_relations _ _ rfl⟩

/-- Claim C3, counterexample: on the one-import, one-function, one-struct
(two fields, one foreign-key annotated), one-enum unit, the assembled
report's schemas entry carries zero relationship facts (its attributes
list, the only slot besides the struct name and the repeated field list,
is empty), although the spec-worded inferencer run on the aggregates
report would emit exactly one foreign-key fact. -/
theorem schemas_carry_no_relationship_facts :
    (MainRs.generate_json MainRs.exUnit).map
      (fun r => r.schemas.map (fun s => s.attributes.length)) = Except.ok [0]
    ∧ (MainRs.generate_json MainRs.exUnit).map
      (fun r => (MainRs.specInferRelationships r.structs).length) = Except.ok 1 :=
  ⟨rfl, rfl⟩

/-- Claim C3, amended: on the same unit the direct-level scan is complete —
imports 1, functions 1, structs[0] with 2 fields, enums[0] with 2 variants,
and schemas[0] repeating the struct name with its 2 fields — but no
relationship facts are produced anywhere: schemas entries have empty
attributes, while the spec's inferencer applied to the aggregates report
would find the single `(owner_id, foreign_key)` fact. -/
theorem report_lengths_on_unit :
    (MainRs.generate_json MainRs.exUnit).map
      (fun r => (r.imports.length, r.functions.length,
        r.structs.map (fun s => s.children.length),
        r.enums.map (fun e => e.children.length),
        r.schemas.map (fun s => (s.name, s.attributes.length, s.children.length))))
      = Except.ok (1, 1, [2], [2], [("User", 0, 2)])
    ∧ (MainRs.generate_json MainRs.exUnit).map
      (fun r => MainRs.specInferRelationships r.structs)
      = Except.ok [("owner_id", "foreign_key")] :=
  ⟨rfl, rfl⟩

/-- Claim C4, counterexample: a function item without a discoverable `name`
field is not skipped — the extractor (and with it the whole report
assembly) aborts with the unwrap panic. -/
theorem missing_function_name_aborts :
    MainRs.extract_functions MainRs.exFnNoName = Except.error MainRs.unwrapMsg
    ∧ MainRs.generate_json MainRs.exFnNoName = Except.error MainRs.unwrapMsg :=
  ⟨rfl, rfl⟩

/-- Claim C4, amended: the skip-with-diagnostic policy holds only for
struct fields (`extract_fields` drops a nameless field and keeps its
siblings), while `extract_functions` hard-fails on the first nameless
function item regardless of what follows. -/
theorem missing_name_policy :
    (∀ (sn bk bt : String) (e1 e2 : List (Option String × Bool × MainRs.SNode))
        (bad : MainRs.SNode), bad.child_by_field_name "name" = none →
      MainRs.extract_fields
          (.mk "struct_item" sn
            [MainRs.fld "body" (.mk bk bt (e1 ++ [MainRs.anon bad] ++ e2))]) =
        MainRs.extract_fields
          (.mk "struct_item" sn [MainRs.fld "body" (.mk bk bt (e1 ++ e2))]))
    ∧ (∀ (k t ftext : String) (rest : List (Option String × Bool × MainRs.SNode)),
      MainRs.extract_functions
          (.mk k t (MainRs.anon (.mk "function_item" ftext []) :: rest)) =
        Except.error MainRs.unwrapMsg) :=
  ⟨MainRs.extract_fields_skips_nameless, MainRs.extract_functions_nameless_aborts⟩

/-- Witness for `missing_name_policy`: a struct whose body holds one named
field and one nameless field keeps exactly the named sibling, and a
nameless function item aborts extraction. -/
theorem missing_name_policy_witness :
    ((MainRs.SNode.mk "field_declaration" "bad" []).child_by_field_name "name" = none)
    ∧ MainRs.extract_fields
        (.mk "struct_item" "struct B"
          [MainRs.fld "body" (.mk "field_declaration_list" "fl"
            ([MainRs.anon (.mk "field_declaration" "g: u8"
                [MainRs.fld "name" (.mk "field_identifier" "g" [])])]
              ++ [MainRs.anon (.mk "field_declaration" "bad" [])] ++ []))]) =
      MainRs.extract_fields
        (.mk "struct_item" "struct B"
          [MainRs.fld "body" (.mk "field_declaration_list" "fl"
            ([MainRs.anon (.mk "field_declaration" "g: u8"
                [MainRs.fld "name" (.mk "field_identifier" "g" [])])] ++ []))])
    ∧ MainRs.extract_functions
        (.mk "source_file" "s" (MainRs.anon (.mk "function_item" "fn ()" []) :: [])) =
      Except.error MainRs.unwrapMsg :=
  ⟨rfl, missing_name_policy.1 _ _ _ _ _ _ rfl, missing_name_policy.2 _ _ _ _⟩

/-- Claim C5 (confirmed): a Document Element's inferred name is assigned at
most once and never overridden — a build step preserves an already-set
name; an identifier-like node names a still-unnamed parent; and the struct
whose identifier children are `Point` then `f64` ends named `Point`. -/
theorem name_inference_first_wins :
    (∀ (n : Try2.RNode) (p : Try2.Thing) (s : String),
        p.name = some s → (Try2.build_ast n p).name = some s)
    ∧ (∀ (k t : String) (p : Try2.Thing), p.name = none →
        (k = "type_identifier" ∨ k = "identifier") →
        (Try2.parent_namer k t p).name = some t)
    ∧ (Try2.build_ast Try2.exStructPoint (Try2.Thing.new Try2.Kind.Root "Root")).children.map
        (fun c => c.name) = [some "Point"] := by
  refine ⟨Try2.build_ast_name_immutable, ?_, rfl⟩
  intro k t p hnone hk
  unfold Try2.parent_namer Try2.add_parent_name
  rw [if_pos hk, if_pos (by rw [hnone]; rfl)]

/-- Witness for `name_inference_first_wins`: a parent already named `A`
keeps that name through a build over an identifier node `f64`, and an
identifier child names an unnamed parent. -/
theorem name_inference_first_wins_witness :
    (Try2.build_ast (.mk "identifier" "f64" [])
      ⟨Try2.Kind.Struct, some "A", "struct A", [], []⟩).name = some "A"
    ∧ (Try2.parent_namer "identifier" "f" (Try2.Thing.new Try2.Kind.Struct "s")).name
      = some "f" :=
  ⟨name_inference_first_wins.1 _ _ "A" rfl,
   name_inference_first_wins.2.1 "identifier" "f" _ rfl (Or.inr rfl)⟩

/-- Claim C6 (confirmed): an element of kind `Undefined` is never added to
any parent's children list — the property "no children list anywhere holds
an Undefined element" is an invariant of `build_ast`. -/
theorem no_undefined_child_ever_attached (n : Try2.RNode) (p : Try2.Thing)
    (h : Try2.noUndefChild p = true) :
    Try2.noUndefChild (Try2.build_ast n p) = true :=
  Try2.noUndef_build n p h

/-- Witness for `no_undefined_child_ever_attached` on the unit with an
unmapped wrapper (the path that classifies a node as Undefined). -/
theorem no_undefined_child_ever_attached_witness :
    Try2.noUndefChild (Try2.Thing.new Try2.Kind.Root "Root") = true
    ∧ Try2.noUndefChild
        (Try2.build_ast Try2.exUnmappedWrapper (Try2.Thing.new Try2.Kind.Root "Root")) = true :=
  ⟨rfl, no_undefined_child_ever_attached _ _ rfl⟩

/-- Claim C7, counterexample: in the final shaped tree of a unit whose
`impl` block holds a `let` declaration followed by a method, the impl
element's children end in the order `[Variable, Function]` — not sorted by
`(kind, name)` (`Function` precedes `Variable` in the kind order): the
directly-pushed method is appended after the last sort of that list. -/
theorem impl_children_end_unsorted :
    ((Try2.generate_ast_with_relations Try2.exImplMixed).children.map (fun sf =>
      sf.children.map (fun im => im.children.map (fun c => c.kind))))
      = [[[Try2.Kind.Variable, Try2.Kind.Function]]]
    ∧ ¬ (Try2.Kind.Variable.idx < Try2.Kind.Function.idx ∨
        (Try2.Kind.Variable.idx = Try2.Kind.Function.idx ∧ True)) :=
  ⟨rfl, by decide⟩

/-- Claim C7, amended: sorting is unconditional and runs at the end of
every build call, so the children list handed back for the enclosing
parent is always sorted by `(kind, name)`; only an Impl element's
directly-appended trailing methods can be left unsorted deeper in the
tree. -/
theorem build_ast_children_sorted (n : Try2.RNode) (p : Try2.Thing) :
    List.Sorted Try2.thingLe (Try2.build_ast n p).children := by
  cases n with
  | mk k t cs =>
    simp only [Try2.build_ast]
    show List.Sorted Try2.thingLe (Try2.sortChildren _)
    exact Try2.sorted_sortChildren _

/-- Claim C8, counterexample: a top-level `let` declaration without a
`value` field is reported with a JSON `null` — not with the whole node's
text `let x;` as the fallback rule claims. -/
theorem global_without_value_records_null :
    MainRs.extract_globals MainRs.exGlobalNoValue =
      Except.ok [MainRs.MThing.mk "x" [MainRs.JValue.obj [("type", MainRs.JValue.null)]] []]
    ∧ MainRs.JValue.null ≠ MainRs.JValue.str "let x;" :=
  ⟨rfl, fun h => MainRs.JValue.noConfusion h⟩

/-- Claim C8, amended: a constant without an explicit `value` child indeed
falls back to the whole node's text, but a global (`let`) without a
`value` child is recorded as JSON `null` under the key `type`, with no
fallback. -/
theorem const_fallback_and_global_null :
    (∀ (k t ctext : String) (ces : List (Option String × Bool × MainRs.SNode))
        (nm : MainRs.SNode),
      (MainRs.SNode.mk "const_item" ctext ces).child_by_field_name "name" = some nm →
      (MainRs.SNode.mk "const_item" ctext ces).child_by_field_name "value" = none →
      MainRs.extract_constants (.mk k t [MainRs.anon (.mk "const_item" ctext ces)]) =
        Except.ok [MainRs.MThing.mk (MainRs.node_text nm)
          [MainRs.JValue.obj [("value", MainRs.JValue.str ctext)]] []])
    ∧ (∀ (k t gtext : String) (ges : List (Option String × Bool × MainRs.SNode))
        (nm : MainRs.SNode),
      (MainRs.SNode.mk "let_declaration" gtext ges).child_by_field_name "name" = some nm →
      (MainRs.SNode.mk "let_declaration" gtext ges).child_by_field_name "value" = none →
      MainRs.extract_globals (.mk k t [MainRs.anon (.mk "let_declaration" gtext ges)]) =
        Except.ok [MainRs.MThing.mk (MainRs.node_text nm)
          [MainRs.JValue.obj [("type", MainRs.JValue.null)]] []]) :=
  ⟨MainRs.extract_constants_fallback, MainRs.extract_globals_null⟩

/-- Witness for `const_fallback_and_global_null` on a valueless constant
and a valueless global. -/
theorem const_fallback_and_global_null_witness :
    MainRs.extract_constants
        (.mk "source_file" "const C: u8;"
          [MainRs.anon (.mk "const_item" "const C: u8;"
            [MainRs.fld "name" (.mk "identifier" "C" [])])]) =
      Except.ok [MainRs.MThing.mk "C"
        [MainRs.JValue.obj [("value", MainRs.JValue.str "const C: u8;")]] []]
    ∧ MainRs.extract_globals
        (.mk "source_file" "let x;"
          [MainRs.anon (.mk "let_declaration" "let x;"
            [MainRs.fld "name" (.mk "identifier" "x" [])])]) =
      Except.ok [MainRs.MThing.mk "x"
        [MainRs.JValue.obj [("type", MainRs.JValue.null)]] []] :=
  ⟨const_fallback_and_global_null.1 "source_file" "const C: u8;" "const C: u8;"
      [MainRs.fld "name" (.mk "identifier" "C" [])] (.mk "identifier" "C" []) rfl rfl,
   const_fallback_and_global_null.2 "source_file" "let x;" "let x;"
      [MainRs.fld "name" (.mk "identifier" "x" [])] (.mk "identifier" "x" []) rfl rfl⟩

/-- Claim C9 (confirmed): the extraction is a pure function of its input —
both the assembled report and the shaped tree are identical across runs on
identical input; the embedding is total and deterministic because the
source iterates only ordered vectors and reads no clock or other ambient
state. -/
theorem extraction_deterministic (t1 t2 : MainRs.SNode) (r1 r2 : Try2.RNode)
    (ht : t1 = t2) (hr : r1 = r2) :
    MainRs.generate_json t1 = MainRs.generate_json t2
    ∧ Try2.generate_ast_with_relations r1 = Try2.generate_ast_with_relations r2 := by
  subst ht; subst hr; exact ⟨rfl, rfl⟩

/-- Witness for `extraction_deterministic` on the concrete completeness
unit and the impl-with-method unit. -/
theorem extraction_deterministic_witness :
    MainRs.generate_json MainRs.exUnit = MainRs.generate_json MainRs.exUnit
    ∧ Try2.generate_ast_with_relations Try2.exImplFn
      = Try2.generate_ast_with_relations Try2.exImplFn :=
  extraction_deterministic _ _ _ _ rfl rfl

/-- Claim C10 (confirmed): for an `impl` node all of whose children are
`function_item`s, each method is attached to the Impl element as a fresh
`Function` element with no name, no children and no relations, in document
order, and the builder never recurses into the method subtrees — the
result depends only on each method's text. -/
theorem impl_methods_attached_flat (t : String) (cs : List Try2.RNode) (p : Try2.Thing)
    (h : cs.all (fun c => c.kindTag == "function_item") = true) :
    Try2.build_ast (.mk "impl_item" t cs) p =
      { p with children := Try2.sortChildren (p.children ++
        [⟨Try2.Kind.Impl, none, t,
          cs.map (fun c => Try2.Thing.new Try2.Kind.Function c.textOf), []⟩]) } := by
  simp only [Try2.build_ast]
  rw [show Try2.Kind.from_str "impl_item" = Try2.Kind.Impl from rfl, if_pos rfl]
  rw [Try2.buildImplChildren_all_fn cs _ h]
  rw [show Try2.parent_namer "impl_item" t p = p from rfl]
  rw [show Try2.Thing.new Try2.Kind.Impl t =
    (⟨Try2.Kind.Impl, none, t, [], []⟩ : Try2.Thing) from rfl]
  rw [if_pos (by rfl)]
  simp

/-- Witness for `impl_methods_attached_flat`: the single method wrapping a
local `let` and a call contributes one empty `Function` element; nothing
from the method body reaches the tree. -/
theorem impl_methods_attached_flat_witness :
    ([Try2.RNode.mk "function_item" "fn m body" Try2.exMethodChildren].all
        (fun c => Try2.RNode.kindTag c == "function_item") = true)
    ∧ Try2.build_ast Try2.exImplDeepMethod (Try2.Thing.new Try2.Kind.Root "Root") =
      { (Try2.Thing.new Try2.Kind.Root "Root") with children :=
          (Try2.sortChildren ((Try2.Thing.new Try2.Kind.Root "Root").children ++
            [⟨Try2.Kind.Impl, none, "impl T (fn m)",
              [Try2.RNode.mk "function_item" "fn m body" Try2.exMethodChildren].map
                (fun c => Try2.Thing.new Try2.Kind.Function c.textOf), []⟩])) } :=
  ⟨rfl, impl_methods_attached_flat "impl T (fn m)"
    [Try2.RNode.mk "function_item" "fn m body" Try2.exMethodChildren]
    (Try2.Thing.new Try2.Kind.Root "Root") rfl⟩
